import Mathlib

/- Formal model of the monorepo-versioning GitHub Action (pkg/action.go):
   the version-resolution and changelog-generation engine. Go strings are
   modelled as Lean strings over their character lists (the repository only
   handles ASCII identifiers, versions and hashes), Go panics as an explicit
   error type, and the external GitHub / commit-classification collaborators
   as function-valued inputs. -/

set_option maxRecDepth 4000

namespace MonorepoVersioning

/-- Errors modelling the Go panics reachable from the engine:
    out-of-range string slicing (`s[:7]` on a shorter string),
    `semver.MustParse` on an unparseable version string, and
    `Version.SetPrerelease` rejecting an invalid prerelease label. -/
inductive GoError where
  | sliceOutOfRange
  | invalidSemVer
  | invalidPrerelease
deriving DecidableEq, Repr

/-- Go `strings.HasPrefix`, byte-for-byte, modelled on character lists. -/
def goHasPrefix (s p : String) : Bool :=
  p.data.isPrefixOf s.data

/-- Go `strings.TrimPrefix`: drops the prefix when present, else returns
    the string unchanged. -/
def goTrimPrefix (s p : String) : String :=
  if goHasPrefix s p then String.mk (s.data.drop p.data.length) else s

/-- Go `strings.ToLower`, modelled as ASCII character-wise lowering. -/
def goToLower (s : String) : String :=
  String.mk (s.data.map Char.toLower)

/-- Go `strings.EqualFold`, modelled as ASCII simple case folding. -/
def goEqualFold (s t : String) : Bool :=
  goToLower s == goToLower t

/-- Length of a Go string (in characters for this ASCII model). -/
def goLen (s : String) : Nat :=
  s.data.length

/-- Go string slicing `s[:n]`; panics (error) when the string is shorter
    than `n`, exactly as Go does. -/
def goSliceTo (s : String) (n : Nat) : Except GoError String :=
  if goLen s < n then .error .sliceOutOfRange else .ok (String.mk (s.data.take n))

/-- One Go `time.Millisecond` in nanoseconds. -/
def timeMillisecond : Int := 1000000

/-- One Go `time.Second` in nanoseconds. -/
def timeSecond : Int := 1000000000

/-- Go `time.Date(1970, time.January, 1, 0, 0, 0, 0, time.UTC)`:
    the start of the Unix epoch, as nanoseconds since the epoch. -/
def startOfEpoch : Int := 0

/-- The `Masterminds/semver` `Version` struct used by the action:
    numeric triple, prerelease, build metadata, and the `original`
    string the value was built from. -/
structure Version where
  major : Nat
  minor : Nat
  patch : Nat
  pre : String
  metadata : String
  original : String
deriving DecidableEq, Repr

/-- Decidable equality of collaborator results, for concrete evaluation. -/
instance exceptDecidableEq {ε α : Type} [DecidableEq ε] [DecidableEq α] :
    DecidableEq (Except ε α)
  | .ok x, .ok y =>
    if h : x = y then .isTrue (by rw [h]) else .isFalse (fun hc => h (by cases hc; rfl))
  | .ok _, .error _ => .isFalse (fun hc => Except.noConfusion hc)
  | .error _, .ok _ => .isFalse (fun hc => Except.noConfusion hc)
  | .error x, .error y =>
    if h : x = y then .isTrue (by rw [h]) else .isFalse (fun hc => h (by cases hc; rfl))

/-- The zero value `semver.Version{}` that `newVersion` compares against. -/
def zeroVersion : Version :=
  { major := 0, minor := 0, patch := 0, pre := "", metadata := "", original := "" }

/-- Rendering of `Version.String()`: `major.minor.patch[-pre][+metadata]`. -/
def versionString (v : Version) : String :=
  let core := toString v.major ++ "." ++ toString v.minor ++ "." ++ toString v.patch
  let withPre := if v.pre ≠ "" then core ++ "-" ++ v.pre else core
  if v.metadata ≠ "" then withPre ++ "+" ++ v.metadata else withPre

/-- The semver library's `originalVPrefix`: a leading "v" of the original
    string, kept when re-deriving `original` after an increment. -/
def Version.originalVPrefix (v : Version) : String :=
  if v.original ≠ "" ∧ String.mk (v.original.data.take 1) = "v" then "v" else ""

/-- Semver `IncMajor`: bumps major, zeroes minor/patch, clears
    prerelease and metadata, and re-derives the original string. -/
def Version.IncMajor (v : Version) : Version :=
  let vNext : Version :=
    { major := v.major + 1, minor := 0, patch := 0, pre := "", metadata := "",
      original := v.original }
  { vNext with original := v.originalVPrefix ++ versionString vNext }

/-- Semver `IncMinor`: bumps minor, zeroes patch, clears prerelease and
    metadata, and re-derives the original string. -/
def Version.IncMinor (v : Version) : Version :=
  let vNext : Version :=
    { major := v.major, minor := v.minor + 1, patch := 0, pre := "", metadata := "",
      original := v.original }
  { vNext with original := v.originalVPrefix ++ versionString vNext }

/-- Semver `IncPatch`: when a prerelease is present it is dropped without
    bumping patch (semver spec items 9/10); otherwise patch is bumped.
    Metadata is cleared and the original string re-derived either way. -/
def Version.IncPatch (v : Version) : Version :=
  let vNext : Version :=
    if v.pre ≠ "" then
      { v with metadata := "", pre := "" }
    else
      { v with metadata := "", pre := "", patch := v.patch + 1 }
  { vNext with original := v.originalVPrefix ++ versionString vNext }

/-- Characters the semver prerelease/metadata groups admit: `[0-9A-Za-z-]`. -/
def isPreChar (c : Char) : Bool :=
  c.isAlpha || c.isDigit || c == '-'

/-- Scanner for the semver group shape `g(.g)*` with `g` a nonempty run of
    `isPreChar` characters; the flag records being at the start of a group. -/
def preGroupsOk : List Char → Bool → Bool
  | [], atStart => !atStart
  | c :: rest, atStart =>
    if c == '.' then
      if atStart then false else preGroupsOk rest true
    else if isPreChar c then preGroupsOk rest false
    else false

/-- The semver library's `validPrereleaseRegex`
    `^([0-9A-Za-z-]+(\.[0-9A-Za-z-]+)*)$` as a decidable check. -/
def validPrerelease (s : String) : Bool :=
  !s.data.isEmpty && preGroupsOk s.data true

/-- Semver `SetPrerelease`: rejects a nonempty label that fails the
    prerelease grammar, else installs it and re-derives `original`. -/
def Version.SetPrerelease (v : Version) (p : String) : Except GoError Version :=
  if 0 < p.data.length ∧ validPrerelease p = false then
    .error .invalidPrerelease
  else
    let vNext : Version := { v with pre := p }
    .ok { vNext with original := v.originalVPrefix ++ versionString vNext }

/-- Greatest value fitting Go's `int64`, the bound `strconv.ParseInt`
    enforces while the semver library parses each numeric field. -/
def int64Max : Nat := 9223372036854775807

/-- Accumulates a leading run of ASCII digits into a number, returning
    the value and the unconsumed remainder. -/
def digitsVal (acc : Nat) : List Char → Nat × List Char
  | [] => (acc, [])
  | c :: rest =>
    if c.isDigit then digitsVal (acc * 10 + (c.toNat - 48)) rest else (acc, c :: rest)

/-- Requires at least one leading digit (`[0-9]+`), then accumulates. -/
def takeDigits (l : List Char) : Option (Nat × List Char) :=
  match l with
  | [] => none
  | c :: rest => if c.isDigit then some (digitsVal (c.toNat - 48) rest) else none

/-- Optional `(\.[0-9]+)?` group: absent when the next character is not a
    dot; a dot not followed by digits fails the whole parse. -/
def parseOptionalDotNum (l : List Char) : Option (Option Nat × List Char) :=
  match l with
  | '.' :: rest =>
    match takeDigits rest with
    | some (n, r) => some (some n, r)
    | none => none
  | _ => some (none, l)

/-- Takes the maximal run of prerelease/metadata characters and dots. -/
def takePreRun : List Char → List Char × List Char
  | [] => ([], [])
  | c :: rest =>
    if isPreChar c || c == '.' then
      let (run, r) := takePreRun rest
      (c :: run, r)
    else ([], c :: rest)

/-- Optional suffix introduced by `tag` ('-' for prerelease, '+' for
    metadata): absent yields the empty string; present, the following run
    must satisfy the group grammar or the whole parse fails. -/
def parseOptionalSuffix (tag : Char) (l : List Char) : Option (String × List Char) :=
  match l with
  | [] => some ("", [])
  | c :: rest =>
    if c == tag then
      let (run, r) := takePreRun rest
      if validPrerelease (String.mk run) then some (String.mk run, r) else none
    else some ("", c :: rest)

/-- The semver library's `NewVersion` parser: anchored
    `v?([0-9]+)(\.[0-9]+)?(\.[0-9]+)?(-pre)?(\+meta)?` with absent minor and
    patch defaulting to 0, `int64` bounds on each number, and the input kept
    as `original`. Returns `none` where Go returns an error. -/
def parseVersion (s : String) : Option Version :=
  let l0 := s.data
  let l1 := match l0 with
    | 'v' :: rest => rest
    | _ => l0
  match takeDigits l1 with
  | none => none
  | some (major, l2) =>
    match parseOptionalDotNum l2 with
    | none => none
    | some (minorOpt, l3) =>
      match parseOptionalDotNum l3 with
      | none => none
      | some (patchOpt, l4) =>
        match parseOptionalSuffix '-' l4 with
        | none => none
        | some (pre, l5) =>
          match parseOptionalSuffix '+' l5 with
          | none => none
          | some (meta, l6) =>
            if l6.isEmpty ∧ major ≤ int64Max ∧
                minorOpt.getD 0 ≤ int64Max ∧ patchOpt.getD 0 ≤ int64Max then
              some { major := major, minor := minorOpt.getD 0,
                     patch := patchOpt.getD 0, pre := pre, metadata := meta,
                     original := s }
            else none

/-- A conventional commit record as produced by the external
    go-conventionalcommits classifier: type tag, optional scope,
    description, the `!` marker, and whether a breaking-change footer is
    present. -/
structure ConventionalCommit where
  typ : String
  scope : Option String
  description : String
  exclamation : Bool
  breakingFooter : Bool
deriving DecidableEq, Repr

/-- The classifier library's `IsBreakingChange`: the `!` marker or a
    breaking-change footer. -/
def ConventionalCommit.IsBreakingChange (c : ConventionalCommit) : Bool :=
  c.exclamation || c.breakingFooter

/-- The classifier library's `IsFeat`: type tag equal to "feat". -/
def ConventionalCommit.IsFeat (c : ConventionalCommit) : Bool :=
  c.typ == "feat"

/-- The classifier library's `IsFix`: type tag equal to "fix". -/
def ConventionalCommit.IsFix (c : ConventionalCommit) : Bool :=
  c.typ == "fix"

/-- A GitHub commit as the engine reads it: SHA, web URL, author login,
    and the commit message handed to the classifier. -/
structure RepositoryCommit where
  sha : String
  htmlURL : String
  authorLogin : String
  message : String
deriving DecidableEq, Repr

/-- A GitHub release as the engine reads it: tag, display name, target
    commitish and publish time (Unix seconds, as `PublishedAt.Unix()`). -/
structure RepositoryRelease where
  tagName : String
  name : String
  targetCommitish : String
  publishedAt : Int
deriving DecidableEq, Repr

/-- The external GitHub API collaborator, abstracted over pagination:
    the full release list, the commit listing for a branch and a
    `[since, until)` window (nanosecond bounds), and the committer
    timestamp of a revision. -/
structure GitHubClient where
  allReleases : List RepositoryRelease
  listCommits : String → Int → Int → List RepositoryCommit
  commitTime : String → Int

/-- The `VersioningAction` configuration struct of pkg/action.go, with the
    GitHub client and the conventional-commit classifier machine as
    function-valued collaborator fields. -/
structure VersioningAction where
  owner : String
  repository : String
  component : String
  label : String
  branch : String
  revision : String
  initialVersion : String
  defaultBranch : String
  client : GitHubClient
  classify : String → Option ConventionalCommit

/-- The release-creation request the engine sends to
    `Repositories.CreateRelease` (the one side effect). -/
structure ReleaseRequest where
  tagName : String
  name : String
  targetCommitish : String
  body : String
  prerelease : Bool
deriving DecidableEq, Repr

/-- The `getComponentPrefix` helper: lowercased component plus a hyphen. -/
def getComponentPrefix (component : String) : String :=
  goToLower component ++ "-"

/-- The `prefixWithComponent` helper: component prefix glued onto a
    version string to make a release tag. -/
def prefixWithComponent (component : String) (str : String) : String :=
  getComponentPrefix component ++ str

/-- Inserts a release into a list sorted descending by publish time.
    Go's `sort.Slice` leaves the order of equal keys unspecified; this
    deterministic insertion sort is one refinement of it, and no claim
    depends on the tie order. -/
def insertReleaseDesc (r : RepositoryRelease) : List RepositoryRelease → List RepositoryRelease
  | [] => [r]
  | x :: xs =>
    if x.publishedAt ≥ r.publishedAt then x :: insertReleaseDesc r xs
    else r :: x :: xs

/-- Sorts releases descending by publish time. -/
def sortReleasesDesc (rs : List RepositoryRelease) : List RepositoryRelease :=
  rs.foldr insertReleaseDesc []

/-- The `filterAndSortReleasesForComponent` function: keeps releases whose
    lowercased tag starts with the component prefix, sorted descending by
    publish date. -/
def filterAndSortReleasesForComponent (component : String)
    (releases : List RepositoryRelease) : List RepositoryRelease :=
  sortReleasesDesc (releases.filter
    (fun r => goHasPrefix (goToLower r.tagName) (getComponentPrefix component)))

/-- The `existingVersionOrNew` function: with no matching release, parse
    the configured initial version and report a first creation; otherwise
    strip the component prefix from the latest release's tag and parse the
    remainder. `semver.MustParse` panicking is the error case. -/
def existingVersionOrNew (component : String)
    (existingReleases : List RepositoryRelease) (initialVersion : String) :
    Except GoError (Version × Bool) :=
  match existingReleases with
  | [] =>
    match parseVersion initialVersion with
    | some v => .ok (v, true)
    | none => .error .invalidSemVer
  | latestRelease :: _ =>
    let latestReleaseVersion := goTrimPrefix latestRelease.tagName (getComponentPrefix component)
    match parseVersion latestReleaseVersion with
    | some v => .ok (v, false)
    | none => .error .invalidSemVer

/-- The `convertAndFilterCommitsForComponent` function: classify each
    commit message, drop unparseable commits and commits without a scope,
    and keep the records whose scope case-insensitively equals the
    component. -/
def convertAndFilterCommitsForComponent (classify : String → Option ConventionalCommit)
    (component : String) (commits : List RepositoryCommit) : List ConventionalCommit :=
  match commits with
  | [] => []
  | commit :: rest =>
    match classify commit.message with
    | none => convertAndFilterCommitsForComponent classify component rest
    | some conventionalCommit =>
      match conventionalCommit.scope with
      | none => convertAndFilterCommitsForComponent classify component rest
      | some s =>
        if goEqualFold s component then
          conventionalCommit :: convertAndFilterCommitsForComponent classify component rest
        else
          convertAndFilterCommitsForComponent classify component rest

/-- The bump-scan loop body of `newVersion`: walks the records carrying the
    feature and fix flags; the first breaking record short-circuits with the
    breaking flag set and the loop abandoned. Returns
    (breakingChangesFound, featureChangesFound, fixChangesFound). -/
def scanLoop : List ConventionalCommit → Bool → Bool → Bool × Bool × Bool
  | [], f, x => (false, f, x)
  | c :: rest, f, x =>
    if c.IsBreakingChange then (true, f, x)
    else scanLoop rest (f || c.IsFeat) (x || c.IsFix)

/-- Prerelease suffixing shared by both paths of `newVersion`: on a
    non-default branch the first 7 characters of the revision become the
    prerelease label (Go panics when the revision is shorter or the label
    invalid); on the default branch the version passes through untouched. -/
def applySuffix (a : VersioningAction) (nextVersion : Version) :
    Except GoError (Option Version) :=
  if a.branch ≠ a.defaultBranch then
    match goSliceTo a.revision 7 with
    | .error e => .error e
    | .ok rev7 =>
      match nextVersion.SetPrerelease rev7 with
      | .error e => .error e
      | .ok nv => .ok (some nv)
  else
    .ok (some nextVersion)

/-- The `newVersion` method: first creations return the resolved version
    untouched by commit content; otherwise the bump scan picks
    major/minor/patch by priority, the zero value meaning no change; in
    both paths a non-default branch stamps the prerelease suffix. -/
def newVersion (a : VersioningAction) (currentVersion : Version)
    (newCommits : List ConventionalCommit) (firstVersionCreated : Bool) :
    Except GoError (Option Version) :=
  if firstVersionCreated then
    applySuffix a currentVersion
  else
    match scanLoop newCommits false false with
    | (breakingChangesFound, featureChangesFound, fixChangesFound) =>
      let nextVersion : Version :=
        if breakingChangesFound then currentVersion.IncMajor
        else if featureChangesFound then currentVersion.IncMinor
        else if fixChangesFound then currentVersion.IncPatch
        else zeroVersion
      if nextVersion = zeroVersion then .ok none
      else applySuffix a nextVersion

/-- The `getCurrentChangeTime` method: committer timestamp of the current
    revision. -/
def getCurrentChangeTime (a : VersioningAction) : Int :=
  a.client.commitTime a.revision

/-- The `getPreviousChangeTime` method: none when no release matched,
    else the committer timestamp of the latest release's target commit. -/
def getPreviousChangeTime (a : VersioningAction)
    (existingReleases : List RepositoryRelease) : Option Int :=
  match existingReleases with
  | [] => none
  | latestRelease :: _ => some (a.client.commitTime latestRelease.targetCommitish)

/-- The `getNewCommits` method: an absent lower bound becomes the start of
    the Unix epoch; a present one is advanced by a second to exclude the
    commit of the previous release; the collaborator lists the window. -/
def getNewCommits (a : VersioningAction) (since : Option Int) (untilTime : Int)
    (branch : String) : List RepositoryCommit :=
  match since with
  | none => a.client.listCommits branch startOfEpoch untilTime
  | some t => a.client.listCommits branch (t + timeSecond) untilTime

/-- The `formatCommitChangelogEntry` function: with a non-empty SHA the
    entry links the 7-character short SHA (Go's slice panics when the SHA
    is shorter); with an empty SHA the URL sits in the brackets and the
    description in the link-target position. -/
def formatCommitChangelogEntry (commit : RepositoryCommit)
    (conventionalCommit : ConventionalCommit) : Except GoError String :=
  if commit.sha ≠ "" then
    match goSliceTo commit.sha 7 with
    | .error e => .error e
    | .ok short =>
      .ok ("* [`" ++ short ++ "`](" ++ commit.htmlURL ++ ") " ++
        conventionalCommit.description ++ " (@" ++ commit.authorLogin ++ ")\n")
  else
    .ok ("* [" ++ commit.htmlURL ++ "](" ++ conventionalCommit.description ++
      ") (@" ++ commit.authorLogin ++ ")\n")

/-- Loop body of `generateReleaseNotes`: accumulates the breaking /
    features / fixes entry strings, the contributors section, and the set
    of logins already recorded, skipping unparseable, unscoped and
    foreign-scoped commits. -/
def notesLoop (classify : String → Option ConventionalCommit) (component : String) :
    List RepositoryCommit → String → String → String → String → List String →
    Except GoError (String × String × String × String)
  | [], b, f, x, cs, _ => .ok (b, f, x, cs)
  | commit :: rest, b, f, x, cs, seen =>
    match classify commit.message with
    | none => notesLoop classify component rest b f x cs seen
    | some conventionalCommit =>
      match conventionalCommit.scope with
      | none => notesLoop classify component rest b f x cs seen
      | some s =>
        if goEqualFold s component then
          match (if conventionalCommit.IsBreakingChange then
              formatCommitChangelogEntry commit conventionalCommit
            else .ok "") with
          | .error e => .error e
          | .ok be =>
            match (if conventionalCommit.IsFeat then
                formatCommitChangelogEntry commit conventionalCommit
              else .ok "") with
            | .error e => .error e
            | .ok fe =>
              match (if conventionalCommit.IsFix then
                  formatCommitChangelogEntry commit conventionalCommit
                else .ok "") with
              | .error e => .error e
              | .ok xe =>
                if commit.authorLogin ∈ seen then
                  notesLoop classify component rest (b ++ be) (f ++ fe) (x ++ xe) cs seen
                else
                  notesLoop classify component rest (b ++ be) (f ++ fe) (x ++ xe)
                    (cs ++ "* @" ++ commit.authorLogin ++ "\n")
                    (commit.authorLogin :: seen)
        else
          notesLoop classify component rest b f x cs seen

/-- Caption of the breaking-changes section of the release notes. -/
def breakingHeader : String :=
  "### :hammer: Breaking Changes\n" ++
  "_Breaking changes indicate that an existing behaviour or feature no longer works as before. Pay close attention to any listed breaking changes, and make sure they are acknowledged or mitigated before deploying this version._\n"

/-- Caption of the features section of the release notes. -/
def featuresHeader : String :=
  "### :bulb: Features\n" ++
  "_Feature changes contain some new functionality. Existing behaviour should not be affected._\n"

/-- Caption of the fixes section of the release notes. -/
def fixesHeader : String :=
  "### :construction_worker: Fixes\n" ++
  "_Fixes some unintended behaviour from a previous version. You should familiarise yourself with these changes to understand any problems you may have experienced in previous versions._\n"

/-- Caption of the contributors section of the release notes. -/
def contributorsHeader : String :=
  "### :heart_eyes: Contributors\n" ++
  "_These people contributed to this version of the component - thank you! Note: GitHub's auto-generated contributor list may also include contributors to other components._\n"

/-- A section of the notes template: empty when no entry was collected
    (the builder stayed at its initial length), else the caption followed
    by the entries — the effect of the `strings.Replace` calls on the
    template's singly-occurring placeholders. -/
def notesSection (header entries : String) : String :=
  if entries = "" then "" else header ++ entries

/-- The `generateReleaseNotes` method: runs the loop over all window
    commits and fills the fixed markdown template, omitting empty
    sections. -/
def generateReleaseNotes (a : VersioningAction) (commits : List RepositoryCommit) :
    Except GoError String :=
  match notesLoop a.classify a.component commits "" "" "" "" [] with
  | .error e => .error e
  | .ok (b, f, x, cs) =>
    .ok ("\n> Below is the changelog for this version. Changes are categorised by the type of change (breaking change, new feature, or bugfix). If there isn't a heading for a type of change, there were no relevant changes.\n" ++
      notesSection breakingHeader b ++ "\n" ++
      notesSection featuresHeader f ++ "\n" ++
      notesSection fixesHeader x ++ "\n" ++
      notesSection contributorsHeader cs ++ "\n")

/-- English title casing of the external `cases.Title` collaborator,
    modelled as capitalising the first letter of each space-separated
    word. -/
def titleCaseList : List Char → Bool → List Char
  | [], _ => []
  | c :: rest, atStart =>
    if c == ' ' then c :: titleCaseList rest true
    else (if atStart then c.toUpper else c) :: titleCaseList rest false

/-- English title casing applied to a string. -/
def titleCase (s : String) : String :=
  String.mk (titleCaseList s.data true)

/-- The `createGitHubRelease` method, modelled as producing the release
    request handed to the GitHub collaborator: lowercased prefixed tag,
    titled label-or-component heading, the current revision as target,
    prerelease exactly on a non-default branch, and the generated notes as
    body. -/
def createGitHubRelease (a : VersioningAction) (nv : Version)
    (commits : List RepositoryCommit) : Except GoError ReleaseRequest :=
  let versionName := goToLower (prefixWithComponent a.component (versionString nv))
  let releaseTitle :=
    if a.label ≠ "" then titleCase a.label ++ ": " ++ versionString nv
    else titleCase a.component ++ ": " ++ versionString nv
  let isPrerelease := a.branch ≠ a.defaultBranch
  match generateReleaseNotes a commits with
  | .error e => .error e
  | .ok releaseNotes =>
    .ok { tagName := versionName, name := releaseTitle, targetCommitish := a.revision,
          body := releaseNotes, prerelease := decide isPrerelease }

/-- The `GenerateVersion` entry point: resolves the prior version, derives
    the change window, fetches and filters the window commits, decides the
    next version, and — unless the decision is no-change or the run is dry
    — requests release creation. The second component records the request
    sent to the collaborator, `none` when none was sent. -/
def GenerateVersion (a : VersioningAction) (dryRun : Bool) :
    Except GoError (Option Version × Option ReleaseRequest) :=
  let existingReleases := filterAndSortReleasesForComponent a.component a.client.allReleases
  match existingVersionOrNew a.component existingReleases a.initialVersion with
  | .error e => .error e
  | .ok (existingVersion, firstVersionCreated) =>
    let previousChangeTime := getPreviousChangeTime a existingReleases
    let currentChangeTime := getCurrentChangeTime a
    let newCommits := getNewCommits a previousChangeTime
      (currentChangeTime + timeMillisecond) a.branch
    let componentConventionalCommits :=
      convertAndFilterCommitsForComponent a.classify a.component newCommits
    match newVersion a existingVersion componentConventionalCommits firstVersionCreated with
    | .error e => .error e
    | .ok none => .ok (none, none)
    | .ok (some nv) =>
      if dryRun then .ok (some nv, none)
      else
        match createGitHubRelease a nv newCommits with
        | .error e => .error e
        | .ok req => .ok (some nv, some req)

/- Shared lemmas about the embedded operations. -/

/-- The breaking flag the scan reports is exactly whether some record is
    flagged breaking, whatever the loop carried so far. -/
theorem scanLoop_fst (l : List ConventionalCommit) (f x : Bool) :
    (scanLoop l f x).1 = l.any (·.IsBreakingChange) := by
  induction l generalizing f x with
  | nil => simp [scanLoop]
  | cons c rest ih =>
    by_cases hb : c.IsBreakingChange
    · simp [scanLoop, hb]
    · simp only [scanLoop, hb, if_neg, Bool.false_eq_true, ite_false, List.any_cons]
      simp [ih, hb]

/-- Without a breaking record the scan runs to completion and reports the
    accumulated feature and fix flags. -/
theorem scanLoop_no_breaking (l : List ConventionalCommit) (f x : Bool)
    (h : l.any (·.IsBreakingChange) = false) :
    scanLoop l f x = (false, f || l.any (·.IsFeat), x || l.any (·.IsFix)) := by
  induction l generalizing f x with
  | nil => simp [scanLoop]
  | cons c rest ih =>
    simp only [List.any_cons, Bool.or_eq_false_iff] at h
    simp [scanLoop, h.1, ih _ _ h.2, Bool.or_assoc]

/-- A breaking record short-circuits the scan: records past the scanned
    portion never influence the outcome. -/
theorem scanLoop_append_breaking (l l2 : List ConventionalCommit) (f x : Bool)
    (h : l.any (·.IsBreakingChange) = true) :
    scanLoop (l ++ l2) f x = scanLoop l f x := by
  induction l generalizing f x with
  | nil => simp at h
  | cons c rest ih =>
    by_cases hb : c.IsBreakingChange
    · simp [scanLoop, hb]
    · simp only [List.any_cons, hb, Bool.false_or] at h
      simp [scanLoop, hb, ih _ _ h]

/-- A string append with a nonempty right factor is nonempty. -/
theorem append_ne_empty_right (s t : String) (h : t ≠ "") : s ++ t ≠ "" := by
  intro he
  apply h
  have hd := congrArg String.data he
  rw [String.data_append] at hd
  rcases List.append_eq_nil.mp hd with ⟨_, h2⟩
  cases t
  exact congrArg String.mk h2

/-- Rendering a version never yields the empty string. -/
theorem versionString_ne_empty (v : Version) : versionString v ≠ "" := by
  have hdot : ("." : String).data = ['.'] := rfl
  intro h
  have hd := congrArg String.data h
  unfold versionString at hd
  split_ifs at hd <;>
    simp [String.data_append, hdot, List.append_eq_nil] at hd

/-- A major increment is never the zero version. -/
theorem incMajor_ne_zeroVersion (v : Version) : v.IncMajor ≠ zeroVersion := by
  intro h
  have := congrArg Version.major h
  simp [Version.IncMajor, zeroVersion] at this

/-- A minor increment is never the zero version. -/
theorem incMinor_ne_zeroVersion (v : Version) : v.IncMinor ≠ zeroVersion := by
  intro h
  have := congrArg Version.minor h
  simp [Version.IncMinor, zeroVersion] at this

/-- A patch increment is never the zero version: either patch was bumped,
    or a prerelease was dropped and the re-derived original string is a
    nonempty rendering. -/
theorem incPatch_ne_zeroVersion (v : Version) : v.IncPatch ≠ zeroVersion := by
  intro h
  have ho := congrArg Version.original h
  simp only [Version.IncPatch, zeroVersion] at ho
  exact append_ne_empty_right _ _ (versionString_ne_empty _) ho

/-- Fields of a successfully set prerelease: the label lands in `pre` and
    the numeric triple is untouched. -/
theorem setPrerelease_ok_fields (v w : Version) (p : String)
    (h : v.SetPrerelease p = .ok w) :
    w.pre = p ∧ w.major = v.major ∧ w.minor = v.minor ∧ w.patch = v.patch := by
  unfold Version.SetPrerelease at h
  split at h
  · exact Except.noConfusion h
  · cases h
    simp

/-- A successful 7-character slice returns the first 7 characters and
    certifies the string is at least that long. -/
theorem goSliceTo_ok (s t : String) (h : goSliceTo s 7 = .ok t) :
    t = String.mk (s.data.take 7) ∧ 7 ≤ goLen s := by
  unfold goSliceTo at h
  by_cases hlen : goLen s < 7
  · rw [if_pos hlen] at h
    exact Except.noConfusion h
  · rw [if_neg hlen] at h
    cases h
    exact ⟨rfl, by omega⟩

/-- On the default branch the suffixing step passes the version through. -/
theorem applySuffix_default (a : VersioningAction) (nv : Version)
    (h : a.branch = a.defaultBranch) : applySuffix a nv = .ok (some nv) := by
  simp [applySuffix, h]

/-- On a non-default branch a revision shorter than 7 characters is fatal. -/
theorem applySuffix_short (a : VersioningAction) (nv : Version)
    (hb : a.branch ≠ a.defaultBranch) (hlen : goLen a.revision < 7) :
    applySuffix a nv = .error .sliceOutOfRange := by
  simp [applySuffix, hb, goSliceTo, hlen]

/-- What a successful suffixing step guarantees: the numeric triple is
    preserved; on the default branch the version is unchanged; on another
    branch the prerelease is the 7-character revision slice. -/
theorem applySuffix_ok (a : VersioningAction) (nv w : Version)
    (h : applySuffix a nv = .ok (some w)) :
    w.major = nv.major ∧ w.minor = nv.minor ∧ w.patch = nv.patch ∧
    (a.branch = a.defaultBranch → w = nv) ∧
    (a.branch ≠ a.defaultBranch →
      w.pre = String.mk (a.revision.data.take 7) ∧ 7 ≤ goLen a.revision) := by
  unfold applySuffix at h
  by_cases hb : a.branch ≠ a.defaultBranch
  · rw [if_pos hb] at h
    split at h
    next e heq => exact Except.noConfusion h
    next rev7 heq =>
      split at h
      next e2 heq2 => exact Except.noConfusion h
      next w2 heq2 =>
        cases h
        obtain ⟨hpre, hmaj, hmin, hpat⟩ := setPrerelease_ok_fields nv w rev7 heq2
        obtain ⟨ht, hlen⟩ := goSliceTo_ok _ _ heq
        exact ⟨hmaj, hmin, hpat, fun hd => absurd hd hb,
          fun _ => ⟨by rw [hpre, ht], hlen⟩⟩
  · rw [if_neg hb] at h
    cases h
    exact ⟨rfl, rfl, rfl, fun _ => rfl, fun hne => absurd hne hb⟩

/- Claim theorems. -/

/-- C8: stripping the component prefix from `prefixWithComponent c v`
    yields `v` again, for every component `c` and version string `v`. -/
theorem claim_c8_roundtrip (c v : String) :
    goTrimPrefix (prefixWithComponent c v) (getComponentPrefix c) = v := by
  cases v with
  | mk vdata =>
    unfold prefixWithComponent goTrimPrefix goHasPrefix
    simp [String.data_append, List.isPrefixOf_iff_prefix, List.prefix_append,
      List.drop_left]

/-- C6: the fetch window handed to the commit-listing collaborator has
    upper bound the committer time of the current revision plus one
    millisecond, and lower bound the start of the Unix epoch with no prior
    release, else the committer time of the latest matching release's
    target commit plus one second. -/
theorem claim_c6_change_window (a : VersioningAction)
    (rels : List RepositoryRelease) (b : String) :
    getNewCommits a (getPreviousChangeTime a rels)
        (getCurrentChangeTime a + timeMillisecond) b =
      a.client.listCommits b
        (match rels with
          | [] => startOfEpoch
          | r :: _ => a.client.commitTime r.targetCommitish + timeSecond)
        (a.client.commitTime a.revision + timeMillisecond) := by
  cases rels <;> rfl

/-- C5: the scope filter keeps exactly the classified records whose scope
    is present and case-insensitively equal to the component — records
    without a scope are dropped — and in particular a record scoped "Foo"
    is retained for component "foo". -/
theorem claim_c5_scope_filter (classify : String → Option ConventionalCommit)
    (component : String) (commits : List RepositoryCommit) :
    (convertAndFilterCommitsForComponent classify component commits =
      (commits.filterMap (fun c => classify c.message)).filter
        (fun cc => match cc.scope with
          | some s => goEqualFold s component
          | none => false)) ∧
    (∀ (cc : ConventionalCommit) (c : RepositoryCommit),
      convertAndFilterCommitsForComponent
          (fun _ => some { cc with scope := some "Foo" }) "foo" [c] =
        [{ cc with scope := some "Foo" }]) := by
  constructor
  · induction commits with
    | nil => rfl
    | cons c rest ih =>
      unfold convertAndFilterCommitsForComponent
      cases hcl : classify c.message with
      | none => simp [hcl, ih]
      | some cc =>
        cases hsc : cc.scope with
        | none => simp [hcl, hsc, ih]
        | some s =>
          by_cases hf : goEqualFold s component
          · simp [hcl, hsc, hf, ih]
          · simp [hcl, hsc, hf, ih]
  · intro cc c
    have hfold : goEqualFold "Foo" "foo" = true := by decide
    simp [convertAndFilterCommitsForComponent, hfold]

/-- With a breaking record present the bump scan settles on a major
    increment, then suffixes. -/
theorem newVersion_eq_applySuffix_major (a : VersioningAction) (cv : Version)
    (commits : List ConventionalCommit)
    (hb : commits.any (·.IsBreakingChange) = true) :
    newVersion a cv commits false = applySuffix a cv.IncMajor := by
  have hb2 : (scanLoop commits false false).1 = true :=
    (scanLoop_fst commits false false).trans hb
  rcases hscan : scanLoop commits false false with ⟨b, f, x⟩
  rw [hscan] at hb2
  simp only at hb2
  subst hb2
  simp [newVersion, hscan, incMajor_ne_zeroVersion]

/-- With no breaking but some feature record the scan settles on a minor
    increment, then suffixes. -/
theorem newVersion_eq_applySuffix_minor (a : VersioningAction) (cv : Version)
    (commits : List ConventionalCommit)
    (hb : commits.any (·.IsBreakingChange) = false)
    (hf : commits.any (·.IsFeat) = true) :
    newVersion a cv commits false = applySuffix a cv.IncMinor := by
  have hs : scanLoop commits false false = (false, true, commits.any (·.IsFix)) := by
    simp [scanLoop_no_breaking commits false false hb, hf]
  simp [newVersion, hs, incMinor_ne_zeroVersion]

/-- With no breaking and no feature but some fix record the scan settles
    on a patch increment, then suffixes. -/
theorem newVersion_eq_applySuffix_patch (a : VersioningAction) (cv : Version)
    (commits : List ConventionalCommit)
    (hb : commits.any (·.IsBreakingChange) = false)
    (hf : commits.any (·.IsFeat) = false)
    (hx : commits.any (·.IsFix) = true) :
    newVersion a cv commits false = applySuffix a cv.IncPatch := by
  have hs : scanLoop commits false false = (false, false, true) := by
    simp [scanLoop_no_breaking commits false false hb, hf, hx]
  simp [newVersion, hs, incPatch_ne_zeroVersion]

/-- With no breaking, feature or fix record the decision is no change. -/
theorem newVersion_none (a : VersioningAction) (cv : Version)
    (commits : List ConventionalCommit)
    (hb : commits.any (·.IsBreakingChange) = false)
    (hf : commits.any (·.IsFeat) = false)
    (hx : commits.any (·.IsFix) = false) :
    newVersion a cv commits false = .ok none := by
  have hs : scanLoop commits false false = (false, false, false) := by
    simp [scanLoop_no_breaking commits false false hb, hf, hx]
  simp [newVersion, hs]

/-- C1: on a non-first-creation bump scan, a breaking record forces a
    major increment and the scan never looks past it; otherwise a feature
    record forces a minor increment; otherwise a fix record a patch
    increment — the priority MAJOR over MINOR over PATCH for every record
    set, regardless of order or multiplicity. -/
theorem claim_c1_bump_priority (a : VersioningAction) (cv : Version)
    (commits : List ConventionalCommit) :
    (commits.any (·.IsBreakingChange) = true →
      (∀ (l2 : List ConventionalCommit) (f x : Bool),
        scanLoop (commits ++ l2) f x = scanLoop commits f x) ∧
      (∀ l2, newVersion a cv (commits ++ l2) false = newVersion a cv commits false) ∧
      (∀ v, newVersion a cv commits false = .ok (some v) →
        v.major = cv.IncMajor.major ∧ v.minor = cv.IncMajor.minor ∧
          v.patch = cv.IncMajor.patch) ∧
      (a.branch = a.defaultBranch →
        newVersion a cv commits false = .ok (some cv.IncMajor))) ∧
    (commits.any (·.IsBreakingChange) = false → commits.any (·.IsFeat) = true →
      (∀ v, newVersion a cv commits false = .ok (some v) →
        v.major = cv.IncMinor.major ∧ v.minor = cv.IncMinor.minor ∧
          v.patch = cv.IncMinor.patch) ∧
      (a.branch = a.defaultBranch →
        newVersion a cv commits false = .ok (some cv.IncMinor))) ∧
    (commits.any (·.IsBreakingChange) = false → commits.any (·.IsFeat) = false →
      commits.any (·.IsFix) = true →
      (∀ v, newVersion a cv commits false = .ok (some v) →
        v.major = cv.IncPatch.major ∧ v.minor = cv.IncPatch.minor ∧
          v.patch = cv.IncPatch.patch) ∧
      (a.branch = a.defaultBranch →
        newVersion a cv commits false = .ok (some cv.IncPatch))) := by
  refine ⟨fun hb => ⟨?_, ?_, ?_, ?_⟩, fun hb hf => ⟨?_, ?_⟩, fun hb hf hx => ⟨?_, ?_⟩⟩
  · exact fun l2 f x => scanLoop_append_breaking commits l2 f x hb
  · intro l2
    have hb2 : (commits ++ l2).any (·.IsBreakingChange) = true := by
      simp [List.any_append, hb]
    rw [newVersion_eq_applySuffix_major a cv _ hb2,
      newVersion_eq_applySuffix_major a cv commits hb]
  · intro v hv
    rw [newVersion_eq_applySuffix_major a cv commits hb] at hv
    obtain ⟨h1, h2, h3, _, _⟩ := applySuffix_ok a _ v hv
    exact ⟨h1, h2, h3⟩
  · intro hd
    rw [newVersion_eq_applySuffix_major a cv commits hb]
    exact applySuffix_default a _ hd
  · intro v hv
    rw [newVersion_eq_applySuffix_minor a cv commits hb hf] at hv
    obtain ⟨h1, h2, h3, _, _⟩ := applySuffix_ok a _ v hv
    exact ⟨h1, h2, h3⟩
  · intro hd
    rw [newVersion_eq_applySuffix_minor a cv commits hb hf]
    exact applySuffix_default a _ hd
  · intro v hv
    rw [newVersion_eq_applySuffix_patch a cv commits hb hf hx] at hv
    obtain ⟨h1, h2, h3, _, _⟩ := applySuffix_ok a _ v hv
    exact ⟨h1, h2, h3⟩
  · intro hd
    rw [newVersion_eq_applySuffix_patch a cv commits hb hf hx]
    exact applySuffix_default a _ hd

/-- C2: with a prior release and no breaking, feature or fix record among
    the scope-filtered window commits, `newVersion` decides no change and
    `GenerateVersion` returns nothing without requesting a release. -/
theorem claim_c2_no_change (a : VersioningAction) (cv : Version)
    (r : RepositoryRelease) (rs : List RepositoryRelease) (dryRun : Bool)
    (hrel : filterAndSortReleasesForComponent a.component a.client.allReleases = r :: rs)
    (hparse : parseVersion (goTrimPrefix r.tagName (getComponentPrefix a.component)) =
      some cv)
    (hnone : ∀ c ∈ convertAndFilterCommitsForComponent a.classify a.component
        (getNewCommits a (getPreviousChangeTime a (r :: rs))
          (getCurrentChangeTime a + timeMillisecond) a.branch),
      c.IsBreakingChange = false ∧ c.IsFeat = false ∧ c.IsFix = false) :
    newVersion a cv
        (convertAndFilterCommitsForComponent a.classify a.component
          (getNewCommits a (getPreviousChangeTime a (r :: rs))
            (getCurrentChangeTime a + timeMillisecond) a.branch)) false = .ok none ∧
    GenerateVersion a dryRun = .ok (none, none) := by
  have hb : (convertAndFilterCommitsForComponent a.classify a.component
      (getNewCommits a (getPreviousChangeTime a (r :: rs))
        (getCurrentChangeTime a + timeMillisecond) a.branch)).any
      (·.IsBreakingChange) = false := by
    rw [List.any_eq_false]
    intro c hc
    simp [(hnone c hc).1]
  have hf : (convertAndFilterCommitsForComponent a.classify a.component
      (getNewCommits a (getPreviousChangeTime a (r :: rs))
        (getCurrentChangeTime a + timeMillisecond) a.branch)).any (·.IsFeat) = false := by
    rw [List.any_eq_false]
    intro c hc
    simp [(hnone c hc).2.1]
  have hx : (convertAndFilterCommitsForComponent a.classify a.component
      (getNewCommits a (getPreviousChangeTime a (r :: rs))
        (getCurrentChangeTime a + timeMillisecond) a.branch)).any (·.IsFix) = false := by
    rw [List.any_eq_false]
    intro c hc
    simp [(hnone c hc).2.2]
  have h1 := newVersion_none a cv _ hb hf hx
  refine ⟨h1, ?_⟩
  simp [GenerateVersion, hrel, existingVersionOrNew, hparse, h1]

/-- C3: with no prior matching release, the decision is the parsed
    configured initial version, independent of commit content — no bump
    scan occurs. -/
theorem claim_c3_first_creation (a : VersioningAction) (iv : Version)
    (hrel : filterAndSortReleasesForComponent a.component a.client.allReleases = [])
    (hparse : parseVersion a.initialVersion = some iv) :
    (∀ commits1 commits2 : List ConventionalCommit,
      newVersion a iv commits1 true = newVersion a iv commits2 true) ∧
    (a.branch = a.defaultBranch →
      ∀ commits : List ConventionalCommit,
        newVersion a iv commits true = .ok (some iv)) ∧
    (a.branch = a.defaultBranch → GenerateVersion a true = .ok (some iv, none)) := by
  refine ⟨fun c1 c2 => rfl, fun hd commits => ?_, fun hd => ?_⟩
  · exact applySuffix_default a iv hd
  · simp [GenerateVersion, hrel, existingVersionOrNew, hparse, newVersion,
      applySuffix_default a iv hd]

/-- C4: any produced version on a non-default branch carries as prerelease
    exactly the first 7 characters of the revision (which then has at
    least 7); on the default branch nothing is added; a short revision is
    fatal where the suffix is required. -/
theorem claim_c4_prerelease (a : VersioningAction) (cv : Version)
    (commits : List ConventionalCommit) (fvc : Bool) :
    (∀ v, newVersion a cv commits fvc = .ok (some v) → a.branch ≠ a.defaultBranch →
      v.pre = String.mk (a.revision.data.take 7) ∧ 7 ≤ goLen a.revision) ∧
    (a.branch = a.defaultBranch → newVersion a cv commits true = .ok (some cv)) ∧
    (a.branch = a.defaultBranch →
      ∀ v, newVersion a cv commits false = .ok (some v) → v.pre = "") ∧
    (a.branch ≠ a.defaultBranch → goLen a.revision < 7 →
      newVersion a cv commits true = .error .sliceOutOfRange) ∧
    (a.branch ≠ a.defaultBranch → goLen a.revision < 7 →
      commits.any (·.IsBreakingChange) = true →
      newVersion a cv commits false = .error .sliceOutOfRange) := by
  refine ⟨?_, ?_, ?_, ?_, ?_⟩
  · intro v hv hbne
    cases fvc with
    | true => exact (applySuffix_ok a cv v hv).2.2.2.2 hbne
    | false =>
      by_cases hb : commits.any (·.IsBreakingChange) = true
      · rw [newVersion_eq_applySuffix_major a cv commits hb] at hv
        exact (applySuffix_ok a _ v hv).2.2.2.2 hbne
      · rw [Bool.not_eq_true] at hb
        by_cases hf : commits.any (·.IsFeat) = true
        · rw [newVersion_eq_applySuffix_minor a cv commits hb hf] at hv
          exact (applySuffix_ok a _ v hv).2.2.2.2 hbne
        · rw [Bool.not_eq_true] at hf
          by_cases hx : commits.any (·.IsFix) = true
          · rw [newVersion_eq_applySuffix_patch a cv commits hb hf hx] at hv
            exact (applySuffix_ok a _ v hv).2.2.2.2 hbne
          · rw [Bool.not_eq_true] at hx
            rw [newVersion_none a cv commits hb hf hx] at hv
            exact absurd hv (by simp)
  · intro hd
    exact applySuffix_default a cv hd
  · intro hd v hv
    by_cases hb : commits.any (·.IsBreakingChange) = true
    · rw [newVersion_eq_applySuffix_major a cv commits hb,
        applySuffix_default a _ hd] at hv
      cases hv
      rfl
    · rw [Bool.not_eq_true] at hb
      by_cases hf : commits.any (·.IsFeat) = true
      · rw [newVersion_eq_applySuffix_minor a cv commits hb hf,
          applySuffix_default a _ hd] at hv
        cases hv
        rfl
      · rw [Bool.not_eq_true] at hf
        by_cases hx : commits.any (·.IsFix) = true
        · rw [newVersion_eq_applySuffix_patch a cv commits hb hf hx,
            applySuffix_default a _ hd] at hv
          cases hv
          simp only [Version.IncPatch]
          split_ifs <;> rfl
        · rw [Bool.not_eq_true] at hx
          rw [newVersion_none a cv commits hb hf hx] at hv
          exact absurd hv (by simp)
  · intro hbne hlen
    exact applySuffix_short a cv hbne hlen
  · intro hbne hlen hb
    rw [newVersion_eq_applySuffix_major a cv commits hb]
    exact applySuffix_short a _ hbne hlen

/-- C7: a malformed configured initial version, or a malformed version
    left after stripping the component prefix from the latest matching
    release's tag, aborts the whole invocation fatally. -/
theorem claim_c7_malformed_version (a : VersioningAction) (dryRun : Bool) :
    (filterAndSortReleasesForComponent a.component a.client.allReleases = [] →
      parseVersion a.initialVersion = none →
      GenerateVersion a dryRun = .error .invalidSemVer) ∧
    (∀ r rs,
      filterAndSortReleasesForComponent a.component a.client.allReleases = r :: rs →
      parseVersion (goTrimPrefix r.tagName (getComponentPrefix a.component)) = none →
      GenerateVersion a dryRun = .error .invalidSemVer) := by
  constructor
  · intro hrel hparse
    simp [GenerateVersion, hrel, existingVersionOrNew, hparse]
  · intro r rs hrel hparse
    simp [GenerateVersion, hrel, existingVersionOrNew, hparse]

/-- C9 (amended): a changelog entry for a commit with a SHA of at least 7
    characters is starred, backtick-quoted short SHA linking the URL, then
    description and author, newline-terminated; with an empty SHA the URL
    sits in the brackets and the description in the link-target position. -/
theorem claim_c9_entry_format (commit : RepositoryCommit) (cc : ConventionalCommit) :
    (commit.sha ≠ "" → 7 ≤ goLen commit.sha →
      formatCommitChangelogEntry commit cc =
        .ok ("* [`" ++ String.mk (commit.sha.data.take 7) ++ "`](" ++
          commit.htmlURL ++ ") " ++ cc.description ++ " (@" ++
          commit.authorLogin ++ ")\n")) ∧
    (commit.sha = "" →
      formatCommitChangelogEntry commit cc =
        .ok ("* [" ++ commit.htmlURL ++ "](" ++ cc.description ++ ") (@" ++
          commit.authorLogin ++ ")\n")) := by
  constructor
  · intro hne hlen
    have h7 : ¬ goLen commit.sha < 7 := by omega
    simp [formatCommitChangelogEntry, hne, goSliceTo, h7]
  · intro he
    simp [formatCommitChangelogEntry, he]

/-- C9 counterexample: at an empty SHA the code renders
    `* [url](description) (@author)` with a newline — not the claimed
    `* [url] description (@author)` — and at a long SHA it backtick-quotes
    the shortened SHA, unlike the claimed bare template. -/
theorem claim_c9_counterexample :
    formatCommitChangelogEntry
        { sha := "", htmlURL := "u", authorLogin := "a", message := "m" }
        { typ := "fix", scope := some "foo", description := "d",
          exclamation := false, breakingFooter := false } = .ok "* [u](d) (@a)\n" ∧
    "* [u](d) (@a)\n" ≠ "* [u] d (@a)" ∧
    "* [u](d) (@a)\n" ≠ "* [u] d (@a)\n" ∧
    formatCommitChangelogEntry
        { sha := "abcdefg123", htmlURL := "u", authorLogin := "a", message := "m" }
        { typ := "fix", scope := some "foo", description := "d",
          exclamation := false, breakingFooter := false } =
      .ok "* [`abcdefg`](u) d (@a)\n" ∧
    "* [`abcdefg`](u) d (@a)\n" ≠ "* [abcdefg](u) d (@a)" := by
  refine ⟨by decide, by decide, by decide, by decide, by decide⟩

/-- C10: a dry run never sends a release request, errors exactly when a
    non-dry run would error before its side effect, and agrees with the
    non-dry run on the computed version whenever both succeed. -/
theorem claim_c10_dry_run (a : VersioningAction) :
    (∀ res, GenerateVersion a true = .ok res → res.2 = none) ∧
    (∀ res res2, GenerateVersion a true = .ok res → GenerateVersion a false = .ok res2 →
      res2.1 = res.1) ∧
    (∀ e, GenerateVersion a true = .error e → GenerateVersion a false = .error e) := by
  cases hE : existingVersionOrNew a.component
      (filterAndSortReleasesForComponent a.component a.client.allReleases)
      a.initialVersion with
  | error e0 =>
    have hg : ∀ d, GenerateVersion a d = .error e0 := fun d => by
      simp [GenerateVersion, hE]
    refine ⟨?_, ?_, ?_⟩
    · intro res h
      rw [hg true] at h
      exact Except.noConfusion h
    · intro res res2 h _
      rw [hg true] at h
      exact Except.noConfusion h
    · intro e h
      rw [hg true] at h
      cases h
      exact hg false
  | ok p =>
    obtain ⟨v, fvc⟩ := p
    cases hN : newVersion a v
        (convertAndFilterCommitsForComponent a.classify a.component
          (getNewCommits a
            (getPreviousChangeTime a
              (filterAndSortReleasesForComponent a.component a.client.allReleases))
            (getCurrentChangeTime a + timeMillisecond) a.branch)) fvc with
    | error e0 =>
      have hg : ∀ d, GenerateVersion a d = .error e0 := fun d => by
        simp [GenerateVersion, hE, hN]
      refine ⟨?_, ?_, ?_⟩
      · intro res h
        rw [hg true] at h
        exact Except.noConfusion h
      · intro res res2 h _
        rw [hg true] at h
        exact Except.noConfusion h
      · intro e h
        rw [hg true] at h
        cases h
        exact hg false
    | ok onv =>
      cases onv with
      | none =>
        have hg : ∀ d, GenerateVersion a d = .ok (none, none) := fun d => by
          simp [GenerateVersion, hE, hN]
        refine ⟨?_, ?_, ?_⟩
        · intro res h
          rw [hg true] at h
          cases h
          rfl
        · intro res res2 h h2
          rw [hg true] at h
          rw [hg false] at h2
          cases h
          cases h2
          rfl
        · intro e h
          rw [hg true] at h
          exact Except.noConfusion h
      | some nv =>
        have hgt : GenerateVersion a true = .ok (some nv, none) := by
          simp [GenerateVersion, hE, hN]
        refine ⟨?_, ?_, ?_⟩
        · intro res h
          rw [hgt] at h
          cases h
          rfl
        · intro res res2 h h2
          rw [hgt] at h
          cases h
          cases hC : createGitHubRelease a nv
              (getNewCommits a
                (getPreviousChangeTime a
                  (filterAndSortReleasesForComponent a.component a.client.allReleases))
                (getCurrentChangeTime a + timeMillisecond) a.branch) with
          | error e3 =>
            have hgf : GenerateVersion a false = .error e3 := by
              simp [GenerateVersion, hE, hN, hC]
            rw [hgf] at h2
            exact Except.noConfusion h2
          | ok req =>
            have hgf : GenerateVersion a false = .ok (some nv, some req) := by
              simp [GenerateVersion, hE, hN, hC]
            rw [hgf] at h2
            cases h2
            rfl
        · intro e h
          rw [hgt] at h
          exact Except.noConfusion h

/- Concrete fixtures for instantiating the theorems. -/

/-- Fixture: a breaking feature record scoped to "foo". -/
def sampleBreaking : ConventionalCommit :=
  { typ := "feat", scope := some "foo", description := "y",
    exclamation := true, breakingFooter := false }

/-- Fixture: a feature record scoped to "foo". -/
def sampleFeat : ConventionalCommit :=
  { typ := "feat", scope := some "foo", description := "y",
    exclamation := false, breakingFooter := false }

/-- Fixture: a fix record scoped to "foo". -/
def sampleFix : ConventionalCommit :=
  { typ := "fix", scope := some "foo", description := "x",
    exclamation := false, breakingFooter := false }

/-- Fixture: the parsed version 1.2.3. -/
def sampleVersion123 : Version :=
  { major := 1, minor := 2, patch := 3, pre := "", metadata := "", original := "1.2.3" }

/-- Fixture: a prior release of component "foo" at version 1.2.3. -/
def sampleRelease : RepositoryRelease :=
  { tagName := "foo-1.2.3", name := "Foo: 1.2.3", targetCommitish := "tc", publishedAt := 5 }

/-- Fixture: a release whose stripped tag is not a semantic version. -/
def badTagRelease : RepositoryRelease :=
  { tagName := "foo-abc", name := "n", targetCommitish := "tc", publishedAt := 1 }

/-- Fixture: an action for component "foo" with a quiet collaborator. -/
def sampleAction (rels : List RepositoryRelease) (branch initVer : String) :
    VersioningAction :=
  { owner := "o", repository := "r", component := "foo", label := "",
    branch := branch, revision := "abcdef1234", initialVersion := initVer,
    defaultBranch := "main",
    client := { allReleases := rels, listCommits := fun _ _ _ => [],
                commitTime := fun _ => 0 },
    classify := fun _ => none }

/-- Fixture: a window commit carrying a fix message for "foo". -/
def sampleCommit : RepositoryCommit :=
  { sha := "abcdefgh", htmlURL := "u", authorLogin := "al", message := "fix(foo): x" }

/-- Fixture: an action whose collaborators deliver one fix commit on top
    of a prior 1.2.3 release. -/
def fullAction : VersioningAction :=
  { owner := "o", repository := "r", component := "foo", label := "",
    branch := "main", revision := "abcdef1234", initialVersion := "1.0.0",
    defaultBranch := "main",
    client := { allReleases := [sampleRelease],
                listCommits := fun _ _ _ => [sampleCommit],
                commitTime := fun _ => 0 },
    classify := fun m => if m == "fix(foo): x" then some sampleFix else none }

/-- Fixture: the parsed version 1.0.0. -/
def version100 : Version :=
  { major := 1, minor := 0, patch := 0, pre := "", metadata := "", original := "1.0.0" }

/-- Fixture: the version 1.2.4 with the prerelease slice of the sample revision. -/
def version124pre : Version :=
  { major := 1, minor := 2, patch := 4, pre := "abcdef1", metadata := "", original := "1.2.4-abcdef1" }

/-- Fixture: the parsed version 1.2.4. -/
def version124 : Version :=
  { major := 1, minor := 2, patch := 4, pre := "", metadata := "", original := "1.2.4" }

/-- Witness for C1 at concrete record sets: breaking short-circuit, and
    the three bump levels on the default branch. -/
theorem claim_c1_witness :
    newVersion (sampleAction [] "main" "1.0.0") sampleVersion123
        ([sampleBreaking] ++ [sampleFeat]) false =
      newVersion (sampleAction [] "main" "1.0.0") sampleVersion123 [sampleBreaking] false ∧
    newVersion (sampleAction [] "main" "1.0.0") sampleVersion123 [sampleBreaking] false =
      .ok (some sampleVersion123.IncMajor) ∧
    newVersion (sampleAction [] "main" "1.0.0") sampleVersion123 [sampleFeat, sampleFix] false =
      .ok (some sampleVersion123.IncMinor) ∧
    newVersion (sampleAction [] "main" "1.0.0") sampleVersion123 [sampleFix] false =
      .ok (some sampleVersion123.IncPatch) := by
  refine ⟨?_, ?_, ?_, ?_⟩
  · exact ((claim_c1_bump_priority (sampleAction [] "main" "1.0.0") sampleVersion123
      [sampleBreaking]).1 (by decide)).2.1 [sampleFeat]
  · exact ((claim_c1_bump_priority (sampleAction [] "main" "1.0.0") sampleVersion123
      [sampleBreaking]).1 (by decide)).2.2.2 rfl
  · exact ((claim_c1_bump_priority (sampleAction [] "main" "1.0.0") sampleVersion123
      [sampleFeat, sampleFix]).2.1 (by decide) (by decide)).2 rfl
  · exact ((claim_c1_bump_priority (sampleAction [] "main" "1.0.0") sampleVersion123
      [sampleFix]).2.2 (by decide) (by decide) (by decide)).2 rfl

/-- Witness for C2: a prior 1.2.3 release and an empty window decide
    no-change and produce no release request. -/
theorem claim_c2_witness :
    GenerateVersion (sampleAction [sampleRelease] "main" "1.0.0") false = .ok (none, none) :=
  (claim_c2_no_change (sampleAction [sampleRelease] "main" "1.0.0") sampleVersion123
    sampleRelease [] false (by decide) (by decide) (by decide)).2

/-- Witness for C3: with no prior release the initial version 1.0.0 comes
    out whatever the records say. -/
theorem claim_c3_witness :
    newVersion (sampleAction [] "main" "1.0.0") version100 [sampleFix] true =
      newVersion (sampleAction [] "main" "1.0.0") version100 [sampleBreaking] true ∧
    GenerateVersion (sampleAction [] "main" "1.0.0") true = .ok (some version100, none) := by
  refine ⟨?_, ?_⟩
  · exact (claim_c3_first_creation (sampleAction [] "main" "1.0.0") version100
      (by decide) (by decide)).1 [sampleFix] [sampleBreaking]
  · exact (claim_c3_first_creation (sampleAction [] "main" "1.0.0") version100
      (by decide) (by decide)).2.2 rfl

/-- Witness for C4: on branch "feature-1" the produced 1.2.4 prerelease
    carries exactly the first 7 revision characters. -/
theorem claim_c4_witness :
    version124pre.pre =
      String.mk ((sampleAction [] "feature-1" "1.0.0").revision.data.take 7) ∧
    7 ≤ goLen (sampleAction [] "feature-1" "1.0.0").revision :=
  (claim_c4_prerelease (sampleAction [] "feature-1" "1.0.0") sampleVersion123
    [sampleFix] false).1 version124pre (by decide) (by decide)

/-- Witness for C7: a bogus initial version and a bogus stripped tag both
    abort the invocation. -/
theorem claim_c7_witness :
    GenerateVersion (sampleAction [] "main" "bogus") true = .error .invalidSemVer ∧
    GenerateVersion (sampleAction [badTagRelease] "main" "1.0.0") false =
      .error .invalidSemVer := by
  refine ⟨?_, ?_⟩
  · exact (claim_c7_malformed_version (sampleAction [] "main" "bogus") true).1
      (by decide) (by decide)
  · exact (claim_c7_malformed_version (sampleAction [badTagRelease] "main" "1.0.0")
      false).2 badTagRelease [] (by decide) (by decide)

/-- Witness for C9 at a long-SHA and an empty-SHA commit. -/
theorem claim_c9_witness :
    formatCommitChangelogEntry
        { sha := "abcdefg123", htmlURL := "u", authorLogin := "a", message := "m" }
        sampleFix =
      .ok ("* [`" ++ String.mk (("abcdefg123" : String).data.take 7) ++ "`](" ++
        "u" ++ ") " ++ "x" ++ " (@" ++ "a" ++ ")\n") ∧
    formatCommitChangelogEntry
        { sha := "", htmlURL := "u", authorLogin := "a", message := "m" } sampleFix =
      .ok ("* [" ++ "u" ++ "](" ++ "x" ++ ") (@" ++ "a" ++ ")\n") := by
  refine ⟨?_, ?_⟩
  · exact (claim_c9_entry_format
      { sha := "abcdefg123", htmlURL := "u", authorLogin := "a", message := "m" }
      sampleFix).1 (by decide) (by decide)
  · exact (claim_c9_entry_format
      { sha := "", htmlURL := "u", authorLogin := "a", message := "m" }
      sampleFix).2 rfl

/-- Witness for C10: a dry run over a fix commit returns 1.2.4 with no
    request; dry and real runs agree on a no-change input; a dry-run error
    reappears identically in the real run. -/
theorem claim_c10_witness :
    (some version124, (none : Option ReleaseRequest)).snd = none ∧
    ((none, none) : Option Version × Option ReleaseRequest).fst =
      ((none, none) : Option Version × Option ReleaseRequest).fst ∧
    GenerateVersion (sampleAction [] "main" "bogus") false = .error .invalidSemVer := by
  refine ⟨?_, ?_, ?_⟩
  · exact (claim_c10_dry_run fullAction).1 (some version124, none) (by decide)
  · exact (claim_c10_dry_run (sampleAction [sampleRelease] "main" "1.0.0")).2.1
      (none, none) (none, none) (by decide) (by decide)
  · exact (claim_c10_dry_run (sampleAction [] "main" "bogus")).2.2 .invalidSemVer
      (by decide)

end MonorepoVersioning
